import Mathlib

/-!
Shallow embedding of `src/lib/rust/log_puller/src/main.rs` (matano log puller
lambda): the batch orchestration handler, the archive writer `upload_data`,
and the startup context builder `build_contexts`.

External collaborators (serde_json parsing, the polymorphic pull connectors,
S3, the uuid generator, the zstd codec, environment variables) are modelled as
oracles supplied in an environment record; the control flow of the handler
itself is translated statement by statement from the source. Byte vectors
(`Vec<u8>`) are modelled as `List Nat`.
-/

namespace LogPuller

/-- Rust `struct PullerRequest { log_source_name: String, time: String }` (main.rs:106-110),
the serde_json target type for an inbound message body. -/
structure PullerRequest where
  log_source_name : String
  time : String
deriving DecidableEq, Repr

/-- Rust `struct SQSBatchResponseItemFailure { itemIdentifier: String }` (main.rs:112-115). -/
structure SQSBatchResponseItemFailure where
  itemIdentifier : String
deriving DecidableEq, Repr

/-- Rust `struct SQSBatchResponse { batchItemFailures: Vec<SQSBatchResponseItemFailure> }`
(main.rs:117-120). -/
structure SQSBatchResponse where
  batchItemFailures : List SQSBatchResponseItemFailure
deriving DecidableEq, Repr

/-- The fields of `aws_lambda_events::event::sqs::SqsMessage` that the handler
reads: `message_id : Option<String>` and `body : Option<String>`. -/
structure SqsMessage where
  message_id : Option String
  body : Option String
deriving DecidableEq, Repr

/-- The fields of `pullers::PullLogsContext` the handler uses. The connector tag
`LogSource` is modelled as a string tag; its `pull_logs` behaviour is an oracle
in `PullEnv`. -/
structure PullLogsContext where
  secret_arn : String
  log_source_type : String
  props : List (String × String)
deriving DecidableEq, Repr

/-- One attempted `put_object` call (main.rs:224-229): bucket, key, body bytes
and the declared `content_encoding`. -/
structure PutCall where
  bucket : String
  key : String
  body : List Nat
  content_encoding : String
deriving DecidableEq, Repr

/-- Environment consumed by `upload_data`: the `INGESTION_BUCKET_NAME` variable
(`none` models a missing variable, which `std::env::var` reports as an error),
the `uuid::Uuid::new_v4()` supply (one fresh identifier per call slot, a
function of the slot only — never of the payload), the zstd encoder (writing to
a `Vec` sink, whose `new`/`write_all`/`finish` results are infallible), and
whether S3 accepts a given put. -/
structure UploadEnv where
  ingestion_bucket_name : Option String
  fresh_uuid : Nat → String
  compress : List Nat → List Nat
  s3_put_ok : PutCall → Bool

/-- Rust `async fn upload_data(data: Vec<u8>, log_source: &str) -> Result<()>`
(main.rs:205-237). Returns the Rust result together with the list of
`put_object` calls attempted (each attempt appears whether or not S3 accepted
it). An empty payload returns `Ok` before any environment read or I/O. -/
def upload_data (env : UploadEnv) (slot : Nat) (data : List Nat) (log_source : String) :
    Except String Unit × List PutCall :=
  if data.isEmpty then (Except.ok (), [])
  else
    match env.ingestion_bucket_name with
    | none => (Except.error "INGESTION_BUCKET_NAME", [])
    | some bucket =>
      let key := log_source ++ "/" ++ env.fresh_uuid slot ++ ".json.zst"
      let final_data := env.compress data
      let put : PutCall := ⟨bucket, key, final_data, "application/zstd"⟩
      if env.s3_put_ok put then (Except.ok (), [put])
      else (Except.error ("put failed: " ++ key), [put])

/-- Environment consumed by the handler: the startup `CONTEXTS` map, the
`serde_json::from_str::<PullerRequest>` oracle, the polymorphic
`pull_logs` connector oracle (keyed by the item's position in the parsed batch,
so distinct batch items are independent calls), and the upload environment. -/
structure PullEnv where
  contexts : String → Option PullLogsContext
  parse : String → Option PullerRequest
  pull_logs : Nat → PullLogsContext → Except String (List Nat)
  upload : UploadEnv

/-- main.rs:129-133: `records.into_iter().flat_map(|msg| msg.body.and_then(|b|
Some((msg.message_id.unwrap(), b))))`. A message without a body is skipped; a
message with a body but no message id hits `unwrap()` on `None`, i.e. a panic,
modelled as `Except.error ()`. -/
def extractRecords : List SqsMessage → Except Unit (List (String × String))
  | [] => Except.ok []
  | msg :: rest =>
    match msg.body with
    | none => extractRecords rest
    | some b =>
      match msg.message_id with
      | none => Except.error ()
      | some id => (extractRecords rest).map (fun l => (id, b) :: l)

/-- main.rs:134-137: `flat_map(|(id, body)| serde_json::from_str::<PullerRequest>
(&body).and_then(|b| Ok((id, b))))`. A parse failure yields nothing: the item
(and its message id) is dropped from the stream. -/
def parseRecords (parse : String → Option PullerRequest) (l : List (String × String)) :
    List (String × PullerRequest) :=
  l.filterMap (fun p => (parse p.2).map (fun r => (p.1, r)))

/-- A batch item that passed context resolution and was dispatched as a future
(main.rs:143-172): its position `slot` in the parsed batch, its message id, the
parsed request, and the resolved context. -/
structure DispatchedItem where
  slot : Nat
  msg_id : String
  req : PullerRequest
  ctx : PullLogsContext
deriving DecidableEq, Repr

/-- The dispatched items of a parsed batch, slots counted from `k`
(main.rs:143-172: items whose `contexts.get` succeeds survive the
`filter_map`). -/
def dispatchedFrom (env : PullEnv) (k : Nat) :
    List (String × PullerRequest) → List DispatchedItem
  | [] => []
  | p :: rest =>
    match env.contexts p.2.log_source_name with
    | none => dispatchedFrom env (k + 1) rest
    | some c => ⟨k, p.1, p.2, c⟩ :: dispatchedFrom env (k + 1) rest

def dispatchedItems (env : PullEnv) (parsed : List (String × PullerRequest)) :
    List DispatchedItem :=
  dispatchedFrom env 0 parsed

/-- main.rs:161-169: ids whose `contexts.get(...).context("Invalid log source.")`
failed are pushed onto `failures` during the `filter_map` pass, in batch
order. -/
def ctxFailureIds (env : PullEnv) (parsed : List (String × PullerRequest)) :
    List String :=
  parsed.filterMap (fun p =>
    match env.contexts p.2.log_source_name with
    | none => some p.1
    | some _ => none)

/-- One dispatched future (main.rs:152-157): `pull_logs(client, ctx)` chained
with `upload_data(data, log_source_name)` via `and_then`. Returns the item's
Rust result and its attempted put calls. -/
def runTask (env : PullEnv) (d : DispatchedItem) : Except String Unit × List PutCall :=
  match env.pull_logs d.slot d.ctx with
  | Except.error e => (Except.error e, [])
  | Except.ok data => upload_data env.upload d.slot data d.req.log_source_name

/-- main.rs:180-190: ids of dispatched items whose awaited result is `Err`,
pushed onto `failures` in dispatch order (`FuturesOrdered` yields results in
submission order). -/
def taskFailureIds (env : PullEnv) (ds : List DispatchedItem) : List String :=
  ds.filterMap (fun d =>
    match (runTask env d).1 with
    | Except.error _ => some d.msg_id
    | Except.ok _ => none)

/-- Ids of dispatched items whose awaited result is `Ok` ("implicitly
succeeded": they are simply absent from the report). -/
def successIds (env : PullEnv) (ds : List DispatchedItem) : List String :=
  ds.filterMap (fun d =>
    match (runTask env d).1 with
    | Except.error _ => none
    | Except.ok _ => some d.msg_id)

/-- The full `failures` vector at main.rs:192: context-resolution failures are
pushed while the futures are being assembled, result failures afterwards. -/
def handlerFailures (env : PullEnv) (parsed : List (String × PullerRequest)) :
    List String :=
  ctxFailureIds env parsed ++ taskFailureIds env (dispatchedItems env parsed)

/-- main.rs:192-202: an empty `failures` vector yields `Ok(None)`, otherwise
`Ok(Some(SQSBatchResponse { batchItemFailures }))`. -/
def processBatch (env : PullEnv) (parsed : List (String × PullerRequest)) :
    Option SQSBatchResponse :=
  let failures := (handlerFailures env parsed).map SQSBatchResponseItemFailure.mk
  if failures.isEmpty then none else some ⟨failures⟩

/-- Rust `async fn handler(event) -> Result<Option<SQSBatchResponse>>`
(main.rs:122-203). `Except.error ()` models the `unwrap` panic in record
extraction; otherwise the extracted records are parsed and the batch
processed. -/
def handler (env : PullEnv) (msgs : List SqsMessage) :
    Except Unit (Option SQSBatchResponse) :=
  (extractRecords msgs).map (fun recs => processBatch env (parseRecords env.parse recs))

/-- The message ids listed in a handler response (absent report = empty list). -/
def reportIds : Option SQSBatchResponse → List String
  | none => []
  | some r => r.batchItemFailures.map (fun f => f.itemIdentifier)

/-- The `pull_logs` calls the batch performs, tagged by item slot: exactly one
per dispatched item (main.rs:152-153). -/
def handlerPullCalls (env : PullEnv) (parsed : List (String × PullerRequest)) :
    List (Nat × PullLogsContext) :=
  (dispatchedItems env parsed).map (fun d => (d.slot, d.ctx))

/-- The `put_object` calls the batch performs, tagged by item slot. -/
def handlerPutCalls (env : PullEnv) (parsed : List (String × PullerRequest)) :
    List (Nat × PutCall) :=
  (dispatchedItems env parsed).flatMap (fun d => ((runTask env d).2).map (fun c => (d.slot, c)))

/-! ### FuturesOrdered: completion-order model

The futures are driven concurrently; `completion` is the order (by submission
index) in which the tasks finish. `FuturesOrdered` buffers each arrival with
its submission index and yields outputs in submission order, regardless of the
completion interleaving. -/

/-- The raw arrival stream: the tasks' results in completion order, each value
travelling with its submission index. -/
def arrivalStream (results : List α) (completion : List Nat) : List (Nat × α) :=
  completion.filterMap (fun i => results[i]?.map (fun r => (i, r)))

/-- The output of `FuturesOrdered`: arrivals reassembled into submission
order by index. -/
def futuresOrderedOutput (results : List α) (completion : List Nat) : List α :=
  (List.range results.length).filterMap
    (fun i => (arrivalStream results completion).lookup i)

/-- main.rs:180-190: `for (result, msg_id) in results.into_iter().zip(msg_ids)`,
pushing `msg_id` onto `failures` when the result is `Err`. The result values
carry no message id — identity is recovered purely by zip position. -/
def collectTaskFailures (msg_ids : List String) (results : List (Except String Unit)) :
    List String :=
  (results.zip msg_ids).filterMap (fun q =>
    match q.1 with
    | Except.error _ => some q.2
    | Except.ok _ => none)

/-- The results of the dispatched futures, in submission order. -/
def taskResults (env : PullEnv) (ds : List DispatchedItem) : List (Except String Unit) :=
  ds.map (fun d => (runTask env d).1)

/-- The batch pipeline with the completion interleaving made explicit: the
futures finish in the order `completion`; their results flow through
`futuresOrderedOutput` and are zipped positionally against the parallel
`msg_ids` vector, exactly as in main.rs:172-190. -/
def handlerWithCompletion (env : PullEnv) (completion : List Nat)
    (parsed : List (String × PullerRequest)) : Option SQSBatchResponse :=
  let ds := dispatchedItems env parsed
  let results := futuresOrderedOutput (taskResults env ds) completion
  let failures := (ctxFailureIds env parsed ++
    collectTaskFailures (ds.map (fun d => d.msg_id)) results).map
    SQSBatchResponseItemFailure.mk
  if failures.isEmpty then none else some ⟨failures⟩

/-! ### Per-item traces (for failure isolation) -/

/-- The contribution of a single batch item, at slot `slot`, to the two phases
of the `failures` vector: `([id], [])` for a context-resolution failure,
`([], [id])` for a dispatched item whose future failed, `([], [])` for a
success. Depends only on the item's own record and the oracles at its own
slot. -/
def itemTrace (env : PullEnv) (slot : Nat) (p : String × PullerRequest) :
    List String × List String :=
  match env.contexts p.2.log_source_name with
  | none => ([p.1], [])
  | some c =>
    match (runTask env ⟨slot, p.1, p.2, c⟩).1 with
    | Except.error _ => ([], [p.1])
    | Except.ok _ => ([], [])

/-- The per-item traces of a batch, slots counted from `k`. -/
def itemTraces (env : PullEnv) (k : Nat) :
    List (String × PullerRequest) → List (List String × List String)
  | [] => []
  | p :: rest => itemTrace env k p :: itemTraces env (k + 1) rest

/-! ### build_contexts (main.rs:33-94) -/

/-- The fields of one parsed `log_source.yml` that `build_contexts` reads:
`name`, `managed.type`, `managed.properties`. Property keys/values are yaml
scalars whose `as_str()` may fail, modelled as `Option String` pairs.
(A directory whose `log_source.yml` is missing or unparsable panics at the
`File::open`/`from_reader` unwraps before any field is read; catalog entries
here are the already-parsed configs.) -/
structure SourceConfig where
  name : Option String
  managed_type : Option String
  managed_properties : Option (List (Option String × Option String))
deriving Repr

/-- Environment of `build_contexts`: the `PULLER_LOG_SOURCE_TYPES` and
`SECRET_ARNS` variables (already deserialized — a missing or malformed
variable panics before the walk starts) and the `LogSource::from_str`
recognizer. -/
structure BuildEnv where
  puller_log_source_types : List String
  secret_arns : List (String × String)
  log_source_from_str : String → Option String

/-- Whether a catalog entry survives the `flat_map` option-chaining
(main.rs:55-74) and the accepted-type `filter` (main.rs:75). -/
def configEligible (env : BuildEnv) (c : SourceConfig) : Bool :=
  match c.name, c.managed_type, c.managed_properties with
  | some n, some t, some _ =>
    (env.log_source_from_str n).isSome && env.puller_log_source_types.contains t
  | _, _, _ => false

/-- The `props` map built at main.rs:77-81: string-valued property pairs, with
`log_source_type` inserted. -/
def buildProps (mt : String) (mp : List (Option String × Option String)) :
    List (String × String) :=
  (mp.filterMap (fun q => q.1.bind (fun ks => q.2.map (fun vs => (ks, vs)))))
    ++ [("log_source_type", mt)]

/-- Rust `fn build_contexts() -> HashMap<String, PullLogsContext>` (main.rs:33-94),
as the association list it collects. `Except.error` models the
`.context("Need secret arn.").unwrap()` panic at main.rs:83-86 for an eligible
source whose name has no entry in `SECRET_ARNS`. -/
def build_contexts (env : BuildEnv) :
    List SourceConfig → Except String (List (String × PullLogsContext))
  | [] => Except.ok []
  | c :: rest =>
    match c.name, c.managed_type, c.managed_properties with
    | some n, some t, some mp =>
      match env.log_source_from_str n with
      | none => build_contexts env rest
      | some _ =>
        if env.puller_log_source_types.contains t then
          match (env.secret_arns.lookup n) with
          | none => Except.error "Need secret arn."
          | some arn =>
            (build_contexts env rest).map
              (fun l => (n, PullLogsContext.mk arn t (buildProps t mp)) :: l)
        else build_contexts env rest
    | _, _, _ => build_contexts env rest

/-! ### Concrete environments for witnesses and counterexamples -/

/-- Concrete upload environment: identity compression, deterministic uuid
supply, accepting S3. -/
def uploadEnvDemo : UploadEnv where
  ingestion_bucket_name := some "bucket"
  fresh_uuid := fun n => "uuid" ++ toString n
  compress := fun l => l
  s3_put_ok := fun _ => true

/-- Concrete pull environment: one resolvable source "src" whose pull succeeds
with two bytes; a body "good" parses to it, a body "bad-source" parses to an
unknown source, anything else fails to parse. -/
def envDemo : PullEnv where
  contexts := fun s => if s = "src" then some ⟨"arn", "tag", []⟩ else none
  parse := fun b =>
    if b = "good" then some ⟨"src", "t0"⟩
    else if b = "bad-source" then some ⟨"nosuch", "t0"⟩
    else none
  pull_logs := fun _ _ => Except.ok [1, 2]
  upload := uploadEnvDemo

/-- Concrete pull environment in which nothing parses and no source
resolves. -/
def envEmpty : PullEnv where
  contexts := fun _ => none
  parse := fun _ => none
  pull_logs := fun _ _ => Except.error "unused"
  upload := uploadEnvDemo

/-- Concrete build environment accepting connector type "t", with an empty
secret-arn map. -/
def buildEnvCex : BuildEnv where
  puller_log_source_types := ["t"]
  secret_arns := []
  log_source_from_str := fun _ => some "tag"

/-! ### Helper lemmas -/

/-- Every parsed item's id lands either in the context-failure list or among
the dispatched items: together they are a permutation of the batch's ids. -/
lemma ctx_dispatched_perm (env : PullEnv) :
    ∀ (k : Nat) (parsed : List (String × PullerRequest)),
      (ctxFailureIds env parsed ++ (dispatchedFrom env k parsed).map (fun d => d.msg_id)).Perm
        (parsed.map Prod.fst)
  | _, [] => by simp [ctxFailureIds, dispatchedFrom]
  | k, p :: rest => by
    cases h : env.contexts p.2.log_source_name with
    | none =>
      simp only [ctxFailureIds, List.filterMap_cons, dispatchedFrom, h, List.map_cons,
        List.cons_append]
      exact (ctx_dispatched_perm env (k + 1) rest).cons p.1
    | some c =>
      simp only [ctxFailureIds, List.filterMap_cons, dispatchedFrom, h, List.map_cons]
      exact (List.perm_middle.trans ((ctx_dispatched_perm env (k + 1) rest).cons p.1)).symm.symm

/-- Every dispatched item's id lands either in the task-failure list or in the
success list: together they are a permutation of the dispatched ids. -/
lemma task_success_perm (env : PullEnv) :
    ∀ (ds : List DispatchedItem),
      (taskFailureIds env ds ++ successIds env ds).Perm (ds.map (fun d => d.msg_id))
  | [] => by simp [taskFailureIds, successIds]
  | d :: rest => by
    cases h : (runTask env d).1 with
    | error e =>
      simp only [taskFailureIds, successIds, List.filterMap_cons, h, List.map_cons,
        List.cons_append]
      exact (task_success_perm env rest).cons d.msg_id
    | ok u =>
      simp only [taskFailureIds, successIds, List.filterMap_cons, h, List.map_cons]
      exact List.perm_middle.trans ((task_success_perm env rest).cons d.msg_id)

/-- The ids listed by the handler's response are exactly the `failures`
vector. -/
lemma reportIds_processBatch (env : PullEnv) (parsed : List (String × PullerRequest)) :
    reportIds (processBatch env parsed) = handlerFailures env parsed := by
  unfold processBatch reportIds
  cases h : handlerFailures env parsed with
  | nil => simp
  | cons a l =>
    simp only [List.map_cons, List.isEmpty_cons]
    simp [Function.comp_def]

/-- The failure-and-success partition of a parsed batch. -/
lemma handler_partition_perm (env : PullEnv) (parsed : List (String × PullerRequest)) :
    (handlerFailures env parsed ++ successIds env (dispatchedItems env parsed)).Perm
      (parsed.map Prod.fst) := by
  unfold handlerFailures
  rw [List.append_assoc]
  exact ((task_success_perm env (dispatchedItems env parsed)).append_left
    (ctxFailureIds env parsed)).trans (ctx_dispatched_perm env 0 parsed)

/-- The context-failure phase of the report is the concatenation of the
per-item traces' first components (which do not depend on the slot). -/
lemma ctxFailureIds_eq_traces (env : PullEnv) :
    ∀ (k : Nat) (parsed : List (String × PullerRequest)),
      ctxFailureIds env parsed = (itemTraces env k parsed).flatMap Prod.fst
  | _, [] => rfl
  | k, p :: rest => by
    cases h : env.contexts p.2.log_source_name with
    | none =>
      simp only [ctxFailureIds, List.filterMap_cons, h, itemTraces, itemTrace,
        List.flatMap_cons]
      exact congrArg (p.1 :: ·) (ctxFailureIds_eq_traces env (k + 1) rest)
    | some c =>
      simp only [ctxFailureIds, List.filterMap_cons, h, itemTraces, itemTrace,
        List.flatMap_cons]
      cases hr : (runTask env ⟨k, p.1, p.2, c⟩).1 <;>
        simpa using ctxFailureIds_eq_traces env (k + 1) rest

/-- The task-failure phase of the report is the concatenation of the per-item
traces' second components. -/
lemma taskFailureIds_eq_traces (env : PullEnv) :
    ∀ (k : Nat) (parsed : List (String × PullerRequest)),
      taskFailureIds env (dispatchedFrom env k parsed)
        = (itemTraces env k parsed).flatMap Prod.snd
  | _, [] => rfl
  | k, p :: rest => by
    cases h : env.contexts p.2.log_source_name with
    | none =>
      simp only [dispatchedFrom, h, itemTraces, itemTrace, List.flatMap_cons]
      simpa using taskFailureIds_eq_traces env (k + 1) rest
    | some c =>
      simp only [dispatchedFrom, h, itemTraces, itemTrace, List.flatMap_cons]
      cases hr : (runTask env ⟨k, p.1, p.2, c⟩).1 with
      | error e =>
        simp only [taskFailureIds, List.filterMap_cons, hr]
        exact congrArg (p.1 :: ·) (taskFailureIds_eq_traces env (k + 1) rest)
      | ok u =>
        simp only [taskFailureIds, List.filterMap_cons, hr]
        simpa using taskFailureIds_eq_traces env (k + 1) rest

/-- Indexing into the per-item traces: item `j`'s trace is a function of item
`j`'s record alone (at slot `k + j`). -/
lemma itemTraces_getElem? (env : PullEnv) :
    ∀ (k : Nat) (parsed : List (String × PullerRequest)) (j : Nat),
      (itemTraces env k parsed)[j]? = parsed[j]?.map (fun p => itemTrace env (k + j) p)
  | _, [], j => by cases j <;> simp [itemTraces]
  | k, p :: rest, 0 => by simp [itemTraces]
  | k, p :: rest, j + 1 => by
    simp only [itemTraces, List.getElem?_cons_succ]
    rw [itemTraces_getElem? env (k + 1) rest j]
    have : k + 1 + j = k + (j + 1) := by omega
    rw [this]

/-- List `lookup` finds the value of a key that occurs with a unique value. -/
lemma lookup_eq_some_of_unique :
    ∀ (l : List (Nat × α)) (i : Nat) (v : α),
      (i, v) ∈ l → (∀ w, (i, w) ∈ l → w = v) → l.lookup i = some v
  | [], _, _, hmem, _ => absurd hmem (List.not_mem_nil _)
  | (j, w) :: rest, i, v, hmem, huniq => by
    by_cases hij : i = j
    · subst hij
      have hwv : w = v := huniq w (List.mem_cons_self _ _)
      subst hwv
      simp
    · have hmem' : (i, v) ∈ rest := by
        rcases List.mem_cons.mp hmem with h | h
        · exact absurd (congrArg Prod.fst h) hij
        · exact h
      have : (i == j) = false := beq_false_of_ne hij
      simp only [List.lookup, this]
      exact lookup_eq_some_of_unique rest i v hmem'
        (fun u hu => huniq u (List.mem_cons_of_mem _ hu))

/-- Membership in the arrival stream: a pair arrives exactly when its index
completed and its value is that task's result. -/
lemma mem_arrivalStream {results : List α} {completion : List Nat} {q : Nat × α} :
    q ∈ arrivalStream results completion ↔ q.1 ∈ completion ∧ results[q.1]? = some q.2 := by
  unfold arrivalStream
  rw [List.mem_filterMap]
  constructor
  · rintro ⟨i, hi, hq⟩
    cases hr : results[i]? with
    | none => rw [hr] at hq; simp at hq
    | some r =>
      rw [hr] at hq
      have hq' : (i, r) = q := Option.some.inj hq
      subst hq'
      exact ⟨hi, hr⟩
  · rintro ⟨hi, hr⟩
    exact ⟨q.1, hi, by rw [hr]; rfl⟩

/-- Reading a list back by index. -/
lemma range_filterMap_getElem? :
    ∀ (l : List α), (List.range l.length).filterMap (fun i => l[i]?) = l
  | [] => rfl
  | a :: rest => by
    rw [List.length_cons, List.range_succ_eq_map, List.filterMap_cons, List.filterMap_map]
    simp only [List.getElem?_cons_zero, Function.comp_def, Nat.succ_eq_add_one,
      List.getElem?_cons_succ]
    exact congrArg (a :: ·) (range_filterMap_getElem? rest)

/-- The `FuturesOrdered` semantics: whenever every task completes exactly once — in
any order — the collected output is the results in submission order. -/
lemma futuresOrderedOutput_of_perm {results : List α} {completion : List Nat}
    (h : completion.Perm (List.range results.length)) :
    futuresOrderedOutput results completion = results := by
  unfold futuresOrderedOutput
  have hlook : ∀ i : Nat, i ∈ List.range results.length →
      (arrivalStream results completion).lookup i = results[i]? := by
    intro i hi
    have hilt : i < results.length := List.mem_range.mp hi
    obtain ⟨r, hr⟩ : ∃ r, results[i]? = some r :=
      ⟨results[i], List.getElem?_eq_getElem hilt⟩
    rw [hr]
    refine lookup_eq_some_of_unique _ i r (mem_arrivalStream.mpr ⟨h.mem_iff.mpr hi, hr⟩) ?_
    intro w hw
    have := (mem_arrivalStream.mp hw).2
    rw [hr] at this
    exact (Option.some.injEq _ _ ▸ this).symm
  rw [List.filterMap_congr hlook]
  exact range_filterMap_getElem? results

/-- The positional zip of results against the parallel id vector recovers
exactly the per-item failure ids, when results are in submission order. -/
lemma collectTaskFailures_eq (env : PullEnv) :
    ∀ (ds : List DispatchedItem),
      collectTaskFailures (ds.map (fun d => d.msg_id)) (taskResults env ds)
        = taskFailureIds env ds
  | [] => rfl
  | d :: rest => by
    cases h : (runTask env d).1 with
    | error e =>
      simp only [collectTaskFailures, taskResults, taskFailureIds, List.map_cons,
        List.zip_cons_cons, List.filterMap_cons, h]
      exact congrArg (d.msg_id :: ·) (collectTaskFailures_eq env rest)
    | ok u =>
      simp only [collectTaskFailures, taskResults, taskFailureIds, List.map_cons,
        List.zip_cons_cons, List.filterMap_cons, h]
      exact collectTaskFailures_eq env rest

/-- Every dispatched item originates from a batch item at its own slot, whose
context resolution succeeded. -/
lemma mem_dispatchedFrom (env : PullEnv) :
    ∀ (k : Nat) (parsed : List (String × PullerRequest)) (d : DispatchedItem),
      d ∈ dispatchedFrom env k parsed →
      ∃ j, ∃ hj : j < parsed.length, d.slot = k + j
        ∧ d.msg_id = parsed[j].1 ∧ d.req = parsed[j].2
        ∧ env.contexts parsed[j].2.log_source_name = some d.ctx
  | _, [], d, hmem => by simp [dispatchedFrom] at hmem
  | k, p :: rest, d, hmem => by
    cases h : env.contexts p.2.log_source_name with
    | none =>
      rw [dispatchedFrom, h] at hmem
      obtain ⟨j, hj, hs, hm, hr, hc⟩ := mem_dispatchedFrom env (k + 1) rest d hmem
      exact ⟨j + 1, by simpa using hj, by omega, by simpa using hm, by simpa using hr,
        by simpa using hc⟩
    | some c =>
      rw [dispatchedFrom, h] at hmem
      rcases List.mem_cons.mp hmem with hd | hmem'
      · subst hd
        exact ⟨0, by simp, by simp, rfl, rfl, by simpa using h⟩
      · obtain ⟨j, hj, hs, hm, hr, hc⟩ := mem_dispatchedFrom env (k + 1) rest d hmem'
        exact ⟨j + 1, by simpa using hj, by omega, by simpa using hm, by simpa using hr,
          by simpa using hc⟩

/-- Record extraction panics exactly when some message has a body but no
message id. -/
lemma extractRecords_error_iff :
    ∀ (msgs : List SqsMessage),
      extractRecords msgs = Except.error ()
        ↔ ∃ m ∈ msgs, m.body.isSome ∧ m.message_id = none
  | [] => by simp [extractRecords]
  | msg :: rest => by
    cases hb : msg.body with
    | none =>
      rw [extractRecords, hb, extractRecords_error_iff rest]
      constructor
      · rintro ⟨m, hm, hprops⟩
        exact ⟨m, List.mem_cons_of_mem _ hm, hprops⟩
      · rintro ⟨m, hm, hprops⟩
        rcases List.mem_cons.mp hm with rfl | hm'
        · rw [hb] at hprops; simp at hprops
        · exact ⟨m, hm', hprops⟩
    | some b =>
      cases hid : msg.message_id with
      | none =>
        rw [extractRecords, hb, hid]
        simp only [true_iff]
        exact ⟨msg, List.mem_cons_self _ _, by simp [hb, hid]⟩
      | some i =>
        rw [extractRecords, hb, hid]
        constructor
        · intro h
          cases he : extractRecords rest with
          | error u =>
            obtain ⟨m, hm, hprops⟩ := (extractRecords_error_iff rest).mp (by
              cases u; exact he)
            exact ⟨m, List.mem_cons_of_mem _ hm, hprops⟩
          | ok l => rw [he] at h; simp [Except.map] at h
        · rintro ⟨m, hm, hprops⟩
          rcases List.mem_cons.mp hm with rfl | hm'
          · rw [hid] at hprops; simp at hprops
          · rw [(extractRecords_error_iff rest).mpr ⟨m, hm', hprops⟩]
            rfl

/-- A message without a body is skipped by extraction, wherever it sits in the
batch. -/
lemma extractRecords_skip_bodyless (mid : Option String) (l2 : List SqsMessage) :
    ∀ (l1 : List SqsMessage),
      extractRecords (l1 ++ ⟨mid, none⟩ :: l2) = extractRecords (l1 ++ l2)
  | [] => by simp [extractRecords]
  | m :: l1 => by
    cases hb : m.body with
    | none =>
      rw [List.cons_append, extractRecords, hb, List.cons_append, extractRecords, hb]
      exact extractRecords_skip_bodyless mid l2 l1
    | some b =>
      cases hid : m.message_id with
      | none => rw [List.cons_append, extractRecords, hb, hid, List.cons_append,
          extractRecords, hb, hid]
      | some i =>
        rw [List.cons_append, extractRecords, hb, hid, List.cons_append,
          extractRecords, hb, hid, extractRecords_skip_bodyless mid l2 l1]

/-- A non-empty payload with a configured bucket yields exactly the one
attempted put, whether or not S3 accepts it. -/
lemma upload_data_puts_nonempty (env : UploadEnv) (slot : Nat) (src : String)
    (data : List Nat) (b : String) (hb : env.ingestion_bucket_name = some b)
    (hd : data ≠ []) :
    (upload_data env slot data src).2
      = [⟨b, src ++ "/" ++ env.fresh_uuid slot ++ ".json.zst",
          env.compress data, "application/zstd"⟩] := by
  have hbe : data.isEmpty = false := by
    cases data with
    | nil => exact absurd rfl hd
    | cons a l => rfl
  unfold upload_data
  rw [hbe, hb]
  simp only [Bool.false_eq_true, if_false]
  split <;> rfl

/-- Dropping an ineligible catalog entry leaves `build_contexts` unchanged. -/
lemma build_contexts_drop (env : BuildEnv) (c : SourceConfig)
    (rest : List SourceConfig) (h : configEligible env c = false) :
    build_contexts env (c :: rest) = build_contexts env rest := by
  obtain ⟨n, t, mp⟩ := c
  cases n with
  | none => simp [build_contexts]
  | some n =>
    cases t with
    | none => simp [build_contexts]
    | some t =>
      cases mp with
      | none => simp [build_contexts]
      | some mp =>
        simp only [configEligible] at h
        cases hf : env.log_source_from_str n with
        | none => simp [build_contexts, hf]
        | some tag =>
          rw [hf] at h
          simp only [Option.isSome_some, Bool.true_and] at h
          have hmem : t ∉ env.puller_log_source_types := by simpa using h
          simp [build_contexts, hf, hmem]

/-- The function `build_contexts` on a catalog depends on the tail only through its own
result. -/
lemma build_contexts_cons_congr (env : BuildEnv) (d : SourceConfig)
    {A B : List SourceConfig}
    (h : build_contexts env A = build_contexts env B) :
    build_contexts env (d :: A) = build_contexts env (d :: B) := by
  obtain ⟨n, t, mp⟩ := d
  cases n with
  | none => simpa [build_contexts] using h
  | some n =>
    cases t with
    | none => simpa [build_contexts] using h
    | some t =>
      cases mp with
      | none => simpa [build_contexts] using h
      | some mp =>
        cases hf : env.log_source_from_str n with
        | none => simpa [build_contexts, hf] using h
        | some tag =>
          by_cases hmem : t ∈ env.puller_log_source_types
          · cases hl : env.secret_arns.lookup n with
            | none => simp [build_contexts, hf, hl, hmem]
            | some arn => simp [build_contexts, hf, hl, hmem, h]
          · simp [build_contexts, hf, hmem, h]

/-- Skipping an ineligible entry anywhere in the catalog. -/
lemma build_contexts_skip (env : BuildEnv) (c : SourceConfig)
    (h : configEligible env c = false) :
    ∀ (l1 l2 : List SourceConfig),
      build_contexts env (l1 ++ c :: l2) = build_contexts env (l1 ++ l2)
  | [], l2 => by simpa using build_contexts_drop env c l2 h
  | d :: l1, l2 => by
    rw [List.cons_append, List.cons_append]
    exact build_contexts_cons_congr env d (build_contexts_skip env c h l1 l2)

/-! ### Claims -/

/-- C1 (counterexample): a batch with one message whose payload fails to parse.
The handler returns an absent report — the id "m1" is NOT marked failed,
contradicting the claim that a parse failure adds the message id to the
redelivery report. -/
theorem parse_failure_unreported_cex :
    envEmpty.parse "x" = none
    ∧ handler envEmpty [⟨some "m1", some "x"⟩] = Except.ok none :=
  ⟨rfl, rfl⟩

/-- C1 (amended): an item whose payload fails to parse is silently dropped: the
batch is processed exactly as if the item were absent — it never reaches a
connector, but its message id does not enter the redelivery report either. -/
theorem parse_failure_silently_dropped (env : PullEnv) (l1 l2 : List (String × String))
    (msgId body : String) (h : env.parse body = none) :
    parseRecords env.parse (l1 ++ (msgId, body) :: l2) = parseRecords env.parse (l1 ++ l2)
    ∧ processBatch env (parseRecords env.parse (l1 ++ (msgId, body) :: l2))
      = processBatch env (parseRecords env.parse (l1 ++ l2)) := by
  have key : parseRecords env.parse (l1 ++ (msgId, body) :: l2)
      = parseRecords env.parse (l1 ++ l2) := by
    unfold parseRecords
    rw [List.filterMap_append, List.filterMap_append, List.filterMap_cons]
    simp [h]
  exact ⟨key, congrArg (processBatch env) key⟩

/-- C1 witness: the amended theorem at a concrete unparseable item. -/
theorem parse_failure_silently_dropped_witness :
    parseRecords envEmpty.parse [("m1", "x")] = parseRecords envEmpty.parse [] :=
  (parse_failure_silently_dropped envEmpty [] [] "m1" "x" rfl).1

/-- C2: for any batch that extracts without panic, the handler's report ids
together with the implicitly-succeeded ids are a permutation of the ids of the
well-formed (parsed) items; hence report size plus success count equals the
number of well-formed items, and — when the ids are distinct — each well-formed
id lies in exactly one of the two groups. -/
theorem handler_report_partition (env : PullEnv) (msgs : List SqsMessage)
    (recs : List (String × String)) (h : extractRecords msgs = Except.ok recs) :
    handler env msgs = Except.ok (processBatch env (parseRecords env.parse recs))
    ∧ (reportIds (processBatch env (parseRecords env.parse recs))
        ++ successIds env (dispatchedItems env (parseRecords env.parse recs))).Perm
        ((parseRecords env.parse recs).map Prod.fst)
    ∧ (reportIds (processBatch env (parseRecords env.parse recs))).length
        + (successIds env (dispatchedItems env (parseRecords env.parse recs))).length
        = (parseRecords env.parse recs).length
    ∧ (((parseRecords env.parse recs).map Prod.fst).Nodup →
        ∀ i ∈ (parseRecords env.parse recs).map Prod.fst,
          (i ∈ reportIds (processBatch env (parseRecords env.parse recs))
              ∧ i ∉ successIds env (dispatchedItems env (parseRecords env.parse recs)))
          ∨ (i ∉ reportIds (processBatch env (parseRecords env.parse recs))
              ∧ i ∈ successIds env (dispatchedItems env (parseRecords env.parse recs)))) := by
  have hh : handler env msgs
      = Except.ok (processBatch env (parseRecords env.parse recs)) := by
    unfold handler
    rw [h]
    rfl
  have hperm := handler_partition_perm env (parseRecords env.parse recs)
  rw [← reportIds_processBatch] at hperm
  refine ⟨hh, hperm, ?_, ?_⟩
  · have hl := hperm.length_eq
    rw [List.length_append, List.length_map] at hl
    exact hl
  · intro hnd i hi
    obtain ⟨hn1, hn2, hdisj⟩ := List.nodup_append.mp (hperm.nodup_iff.mpr hnd)
    rcases List.mem_append.mp (hperm.mem_iff.mpr hi) with hF | hS
    · exact Or.inl ⟨hF, fun hS => hdisj hF hS⟩
    · exact Or.inr ⟨fun hF => hdisj hF hS, hS⟩

/-- C2 witness: a concrete three-item batch (one success, one unknown source,
one malformed body): report size 1 plus success count 1 equals the 2
well-formed items. -/
theorem handler_report_partition_witness :
    extractRecords [⟨some "a", some "good"⟩, ⟨some "b", some "bad-source"⟩,
        ⟨some "c", some "junk"⟩]
      = Except.ok [("a", "good"), ("b", "bad-source"), ("c", "junk")]
    ∧ (reportIds (processBatch envDemo (parseRecords envDemo.parse
          [("a", "good"), ("b", "bad-source"), ("c", "junk")]))).length
        + (successIds envDemo (dispatchedItems envDemo (parseRecords envDemo.parse
          [("a", "good"), ("b", "bad-source"), ("c", "junk")]))).length
        = (parseRecords envDemo.parse [("a", "good"), ("b", "bad-source"), ("c", "junk")]).length :=
  ⟨rfl, (handler_report_partition envDemo
      [⟨some "a", some "good"⟩, ⟨some "b", some "bad-source"⟩, ⟨some "c", some "junk"⟩]
      [("a", "good"), ("b", "bad-source"), ("c", "junk")] rfl).2.2.1⟩

/-- C3: partial-failure isolation. The `failures` vector is exactly the
concatenation of independent per-item traces (each a function of that item's
own record and the oracles at its own slot alone), for batches of any size,
including all-failing ones; and replacing item `i` by anything never changes
the trace of a sibling item `j`. -/
theorem handler_partial_failure_isolation (env : PullEnv)
    (parsed : List (String × PullerRequest)) :
    (handlerFailures env parsed
      = (itemTraces env 0 parsed).flatMap Prod.fst
        ++ (itemTraces env 0 parsed).flatMap Prod.snd)
    ∧ ∀ (i j : Nat) (x : String × PullerRequest), j ≠ i →
        (itemTraces env 0 (parsed.set i x))[j]? = (itemTraces env 0 parsed)[j]? := by
  constructor
  · unfold handlerFailures dispatchedItems
    rw [ctxFailureIds_eq_traces env 0, taskFailureIds_eq_traces env 0]
  · intro i j x hne
    rw [itemTraces_getElem?, itemTraces_getElem?, List.getElem?_set_ne (Ne.symm hne)]

/-- C3 witness: replacing item 0 of a two-item batch leaves item 1's trace
unchanged. -/
theorem handler_partial_failure_isolation_witness :
    (itemTraces envDemo 0 ([("a", PullerRequest.mk "src" "t0"),
        ("b", PullerRequest.mk "nosuch" "t0")].set 0
        ("z", PullerRequest.mk "nosuch" "t0")))[1]?
      = (itemTraces envDemo 0 [("a", PullerRequest.mk "src" "t0"),
        ("b", PullerRequest.mk "nosuch" "t0")])[1]? :=
  (handler_partial_failure_isolation envDemo
      [("a", PullerRequest.mk "src" "t0"), ("b", PullerRequest.mk "nosuch" "t0")]).2
    0 1 ("z", PullerRequest.mk "nosuch" "t0") (by decide)

/-- C4 (counterexample): the dispatched futures return bare results carrying no
message id; attribution is recovered purely by zip position against the
parallel id vector. The same task results attribute to different ids when the
positional id vector changes — so a task does NOT carry its message id as part
of its own closure/state. -/
theorem task_identity_positional_cex :
    collectTaskFailures ["a", "b"] [Except.error "e", Except.ok ()] = ["a"]
    ∧ collectTaskFailures ["b", "a"] [Except.error "e", Except.ok ()] = ["b"] :=
  ⟨rfl, rfl⟩

/-- C4 (amended): outcomes are nonetheless attributed to their own originating
message ids for every completion interleaving, because `FuturesOrdered` yields
results in submission order and the positional zip is taken against the
parallel id vector in that same order: for every completion order that is a
permutation of the submitted task indices, the pipeline's response equals the
interleaving-free batch result. -/
theorem futuresOrdered_attribution (env : PullEnv)
    (parsed : List (String × PullerRequest)) (completion : List Nat)
    (h : completion.Perm (List.range (dispatchedItems env parsed).length)) :
    handlerWithCompletion env completion parsed = processBatch env parsed := by
  have hperm : completion.Perm
      (List.range (taskResults env (dispatchedItems env parsed)).length) := by
    unfold taskResults
    rw [List.length_map]
    exact h
  simp only [handlerWithCompletion, processBatch, handlerFailures]
  rw [futuresOrderedOutput_of_perm hperm, collectTaskFailures_eq]

/-- C4 witness: a two-item batch whose tasks complete in reversed order yields
the same response as the interleaving-free result. -/
theorem futuresOrdered_attribution_witness :
    handlerWithCompletion envDemo [1, 0]
        [("a", PullerRequest.mk "src" "t0"), ("b", PullerRequest.mk "src" "t0")]
      = processBatch envDemo
        [("a", PullerRequest.mk "src" "t0"), ("b", PullerRequest.mk "src" "t0")] :=
  futuresOrdered_attribution envDemo
    [("a", PullerRequest.mk "src" "t0"), ("b", PullerRequest.mk "src" "t0")]
    [1, 0] (by decide)

/-- C5: a parsed request whose source name resolves to no context puts its
message id into the redelivery report, and the batch performs zero `pull_logs`
calls and zero `put_object` calls at that item's slot. -/
theorem unknown_source_isolated (env : PullEnv) (parsed : List (String × PullerRequest))
    (i : Nat) (hi : i < parsed.length)
    (h : env.contexts parsed[i].2.log_source_name = none) :
    parsed[i].1 ∈ reportIds (processBatch env parsed)
    ∧ (∀ c, (i, c) ∉ handlerPullCalls env parsed)
    ∧ (∀ p, (i, p) ∉ handlerPutCalls env parsed) := by
  have hslot : ∀ d ∈ dispatchedItems env parsed, d.slot ≠ i := by
    intro d hd hsl
    obtain ⟨j, hj, hs, _, _, hc⟩ := mem_dispatchedFrom env 0 parsed d hd
    have hji : j = i := by omega
    subst hji
    rw [h] at hc
    exact Option.noConfusion hc
  refine ⟨?_, ?_, ?_⟩
  · rw [reportIds_processBatch]
    apply List.mem_append_left
    exact List.mem_filterMap.mpr ⟨parsed[i], List.getElem_mem hi, by rw [h]⟩
  · intro c hc
    obtain ⟨d, hd, hdc⟩ := List.mem_map.mp hc
    exact hslot d hd (congrArg Prod.fst hdc)
  · intro p hp
    obtain ⟨d, hd, hdp⟩ := List.mem_flatMap.mp hp
    obtain ⟨c', hc', heq⟩ := List.mem_map.mp hdp
    exact hslot d hd (congrArg Prod.fst heq)

/-- C5 witness: a one-item batch with an unknown source: its id is reported. -/
theorem unknown_source_isolated_witness :
    "b" ∈ reportIds (processBatch envDemo [("b", PullerRequest.mk "nosuch" "t0")]) :=
  (unknown_source_isolated envDemo [("b", PullerRequest.mk "nosuch" "t0")]
    0 (by decide) rfl).1

/-- C6: the archive step returns success with zero put calls (and no reads of
the environment) on an empty payload; on a non-empty payload with the bucket
variable set it attempts exactly one put, whose key is
`\x7bsourceName\x7d/\x7buniqueId\x7d.json.zst` with the unique identifier drawn
from the fresh-uuid supply at the call slot; the key is independent of the
payload content (and `upload_data` receives no request id at all). -/
theorem upload_data_key_discipline (env : UploadEnv) (slot : Nat) (src : String)
    (data d1 d2 : List Nat) (b : String)
    (hb : env.ingestion_bucket_name = some b)
    (hd : data ≠ []) (h1 : d1 ≠ []) (h2 : d2 ≠ []) :
    (∀ (env' : UploadEnv) (slot' : Nat) (src' : String),
        upload_data env' slot' [] src' = (Except.ok (), []))
    ∧ (upload_data env slot data src).2
        = [⟨b, src ++ "/" ++ env.fresh_uuid slot ++ ".json.zst",
            env.compress data, "application/zstd"⟩]
    ∧ (upload_data env slot d1 src).2.map (fun p => p.key)
        = (upload_data env slot d2 src).2.map (fun p => p.key) := by
  refine ⟨fun env' slot' src' => rfl,
    upload_data_puts_nonempty env slot src data b hb hd, ?_⟩
  rw [upload_data_puts_nonempty env slot src d1 b hb h1,
    upload_data_puts_nonempty env slot src d2 b hb h2]
  simp

/-- C6 witness: the key discipline at a concrete non-empty payload. -/
theorem upload_data_key_discipline_witness :
    uploadEnvDemo.ingestion_bucket_name = some "bucket"
    ∧ (upload_data uploadEnvDemo 0 [1] "src").2
      = [⟨"bucket", "src" ++ "/" ++ uploadEnvDemo.fresh_uuid 0 ++ ".json.zst",
          uploadEnvDemo.compress [1], "application/zstd"⟩] :=
  ⟨rfl, (upload_data_key_discipline uploadEnvDemo 0 "src" [1] [1] [2] "bucket" rfl
    (List.cons_ne_nil _ _) (List.cons_ne_nil _ _) (List.cons_ne_nil _ _)).2.1⟩

/-- C7: a batch with zero failures yields an absent report (`none`), never a
present report listing zero ids; the empty batch yields `Ok(None)` with no
connector or storage calls. -/
theorem absent_report_convention (env : PullEnv) (parsed : List (String × PullerRequest)) :
    (handlerFailures env parsed = [] → processBatch env parsed = none)
    ∧ (∀ resp, processBatch env parsed = some resp → resp.batchItemFailures ≠ [])
    ∧ handler env [] = Except.ok none
    ∧ handlerPullCalls env (parseRecords env.parse []) = []
    ∧ handlerPutCalls env (parseRecords env.parse []) = [] := by
  refine ⟨?_, ?_, rfl, rfl, rfl⟩
  · intro h
    unfold processBatch
    rw [h]
    rfl
  · intro resp h
    unfold processBatch at h
    cases hF : handlerFailures env parsed with
    | nil => rw [hF] at h; simp at h
    | cons a l =>
      rw [hF] at h
      simp only [List.map_cons, List.isEmpty_cons, Bool.false_eq_true, if_false] at h
      have hr := Option.some.inj h
      subst hr
      simp

/-- C7 witness: the convention at a concrete environment and batch. -/
theorem absent_report_convention_witness :
    handler envEmpty [] = Except.ok none
    ∧ (handlerFailures envEmpty [] = [] → processBatch envEmpty [] = none) :=
  ⟨(absent_report_convention envEmpty []).2.2.1, (absent_report_convention envEmpty []).1⟩

/-- C8 (counterexample): a catalog source with a name, an accepted connector
type and a property set, but no credential reference in `SECRET_ARNS`: it is
eligible, and `build_contexts` panics ("Need secret arn.") instead of silently
excluding it — so construction does not succeed for every such catalog. -/
theorem missing_secret_arn_panics_cex :
    configEligible buildEnvCex ⟨some "foo", some "t", some []⟩ = true
    ∧ build_contexts buildEnvCex [⟨some "foo", some "t", some []⟩]
      = Except.error "Need secret arn." :=
  ⟨rfl, rfl⟩

/-- C8 (amended): a source missing a name, an unrecognized name, a missing
connector type, a type not accepted by this deployment, or a missing property
set is silently excluded: `build_contexts` on the catalog with the entry equals
`build_contexts` on the catalog without it. (A missing credential reference,
by contrast, panics — see the counterexample.) -/
theorem ineligible_source_silently_excluded (env : BuildEnv) (c : SourceConfig)
    (l1 l2 : List SourceConfig) (h : configEligible env c = false) :
    build_contexts env (l1 ++ c :: l2) = build_contexts env (l1 ++ l2) :=
  build_contexts_skip env c h l1 l2

/-- C8 witness: dropping a nameless entry from a singleton catalog. -/
theorem ineligible_source_silently_excluded_witness :
    build_contexts buildEnvCex [⟨none, some "t", some []⟩]
      = build_contexts buildEnvCex [] :=
  ineligible_source_silently_excluded buildEnvCex ⟨none, some "t", some []⟩ [] [] rfl

/-- C9: for a non-empty payload (bucket configured) the archive step makes
exactly one put; for any decompressor that inverts the environment's
compressor (the zstd contract), the put's body decompresses to exactly the
connector's output bytes, and the put declares the compression encoding
`application/zstd` as metadata. -/
theorem upload_roundtrip_and_encoding (env : UploadEnv) (decompress : List Nat → List Nat)
    (slot : Nat) (src b : String) (data : List Nat)
    (hd : data ≠ []) (hb : env.ingestion_bucket_name = some b)
    (hrt : ∀ bs, decompress (env.compress bs) = bs) :
    (upload_data env slot data src).2.length = 1
    ∧ ∀ p ∈ (upload_data env slot data src).2,
        decompress p.body = data ∧ p.content_encoding = "application/zstd" := by
  rw [upload_data_puts_nonempty env slot src data b hb hd]
  refine ⟨rfl, ?_⟩
  intro p hp
  rw [List.mem_singleton] at hp
  subst hp
  exact ⟨hrt data, rfl⟩

/-- C9 witness: the round trip with the identity codec at a concrete payload. -/
theorem upload_roundtrip_and_encoding_witness :
    (upload_data uploadEnvDemo 0 [5] "src").2.length = 1 :=
  (upload_roundtrip_and_encoding uploadEnvDemo (fun l => l) 0 "src" "bucket" [5]
    (List.cons_ne_nil _ _) rfl (fun _ => rfl)).1

/-- C10: the handler panics (unwrap on `None`) exactly when some inbound record
has a body but no message id — so it is total precisely under the precondition
that every record with a body carries an id; and a record with no body is
silently skipped: the handler's result is identical with or without it, so it
can never contribute to the redelivery report. -/
theorem handler_panic_and_bodyless_skip (env : PullEnv) (msgs l1 l2 : List SqsMessage)
    (mid : Option String) :
    (extractRecords msgs = Except.error ()
      ↔ ∃ m ∈ msgs, m.body.isSome ∧ m.message_id = none)
    ∧ handler env (l1 ++ ⟨mid, none⟩ :: l2) = handler env (l1 ++ l2) := by
  refine ⟨extractRecords_error_iff msgs, ?_⟩
  unfold handler
  rw [extractRecords_skip_bodyless mid l2 l1]

end LogPuller
